import Mathlib

/-!
Shallow embedding of the numerical engine of HapTune (`haptune_main.py`).

Points are pairs of rationals (the Python floats are modelled exactly as ℚ).
The mutable attributes of `PlotCanvas` / `App` that the engine touches are
collected in the `Canvas` structure; each Python method becomes a function
`Canvas → ... → Canvas` (or `Except String Canvas` when the method can raise
and report a `ValueError`).

External numerical library calls (`scipy.interpolate.UnivariateSpline`,
`np.sin`, `np.abs` of FFT bins) are not part of the repository; they enter the
embedding as explicit function parameters, and the documented s = 0
exact-interpolation contract of `UnivariateSpline` is expressed as the
predicate `ExactInterpolant`.  Everything that the repository's own code
computes (sorting, history, slicing, grid construction, normalization,
frequency bins) is embedded as executable Lean definitions.
-/

namespace HapTune

/-- A curve point `(x, y)`, as stored in `PlotCanvas.points`. -/
abbrev Pt := ℚ × ℚ

/-- The ordering used by Python's `list.sort()` on `(x, y)` tuples:
lexicographic, ascending `x` with ties broken by `y`. -/
def ptLe (p q : Pt) : Prop := p.1 < q.1 ∨ (p.1 = q.1 ∧ p.2 ≤ q.2)

instance : DecidableRel ptLe := fun p q => by unfold ptLe; infer_instance

/-- `self.points.sort()` — ascending sort in the tuple order.  The tuple
order is a linear order (antisymmetric and total), so the sorted permutation
of a list is unique and any correct sort coincides with Python's stable
`list.sort()`. -/
def sortPoints (l : List Pt) : List Pt := l.insertionSort ptLe

/-- The list is sorted in the exact order produced by `list.sort()`. -/
def SortedLex (l : List Pt) : Prop := l.Pairwise ptLe

instance (l : List Pt) : Decidable (SortedLex l) :=
  inferInstanceAs (Decidable (l.Pairwise ptLe))

/-- The list is sorted ascending by `x` (the property named by the spec). -/
def SortedX (l : List Pt) : Prop := l.Pairwise (fun p q => p.1 ≤ q.1)

instance (l : List Pt) : Decidable (SortedX l) :=
  inferInstanceAs (Decidable (l.Pairwise _))

/-- The state of `PlotCanvas` (plus the `App` fields the engine reads).
`interpolated_points = []` models "attribute absent or empty" (the code only
ever tests the attribute with `hasattr ... and self.interpolated_points`,
so absent and empty are observationally identical);  likewise an absent
`smoothing_spline` is `none`. -/
structure Canvas where
  points : List Pt
  history : List (List Pt)
  original_points : List Pt
  interpolated_points : List Pt
  smoothing_spline : Option (ℚ → ℚ)
  envelope_x : List ℚ
  envelope_y : List ℚ
  vibration_signal : List Pt

/-- `PlotCanvas.record_history`: `self.history.append(list(self.points))`.
The top of the Python stack is the *last* element of the list. -/
def record_history (c : Canvas) : Canvas :=
  { c with history := c.history ++ [c.points] }

/-- `PlotCanvas.add_point`: record history, append, then `update_plot`
(which sorts `self.points`). -/
def add_point (c : Canvas) (x y : ℚ) : Canvas :=
  let c1 := record_history c
  { c1 with points := sortPoints (c1.points ++ [(x, y)]) }

/-- `PlotCanvas.delete_point`: record history; if the point is present,
remove the first exact match and `update_plot` (sort); otherwise no-op. -/
def delete_point (c : Canvas) (p : Pt) : Canvas :=
  let c1 := record_history c
  if p ∈ c1.points then
    { c1 with points := sortPoints (c1.points.erase p) }
  else c1

/-- `PlotCanvas.move_point`: record history; if `old` is present, remove it,
append `new` and `update_plot` (sort); otherwise nothing further happens. -/
def move_point (c : Canvas) (old new : Pt) : Canvas :=
  let c1 := record_history c
  if old ∈ c1.points then
    { c1 with points := sortPoints ((c1.points.erase old) ++ [new]) }
  else c1

/-- `PlotCanvas.undo`: if history is non-empty, pop the latest snapshot into
`self.points` and `update_plot` (sort is applied by `update_plot`). -/
def undo (c : Canvas) : Canvas :=
  if c.history = [] then c
  else
    { c with
      points := sortPoints (c.history.getLast?.getD []),
      history := c.history.dropLast }

/-- Python's slice `l[::s]` for a positive step `s`: every `s`-th element
starting at index 0. -/
def pyStride {α : Type} (l : List α) (s : ℕ) : List α :=
  (l.enum.filter (fun ie => ie.1 % s == 0)).map Prod.snd

/-- `PlotCanvas.downsample_points`.  Raises (caught and surfaced as a warning
dialog) when there are no original points, when
`downsample_factor >= len(self.original_points)`, or when the strided list has
fewer than 2 points; on success replaces `self.points` with the strided
subsequence and calls `update_plot` (which sorts).  `self.original_points` and
`self.history` are not touched (the method never calls `record_history`). -/
def downsample_points (c : Canvas) (factor : ℕ) : Except String Canvas :=
  if c.original_points ≠ [] then
    if c.original_points.length ≤ factor then
      .error "Downsample factor is too large. Not enough points to downsample."
    else if (pyStride c.original_points factor).length < 2 then
      .error "Not enough points after downsampling."
    else
      .ok { c with points := sortPoints (pyStride c.original_points factor) }
  else
    .error "No original points available to downsample."

/-- Python's `int(q)` on a float/rational: truncation toward zero. -/
def pyInt (q : ℚ) : ℤ :=
  if 0 ≤ q then ⌊q⌋ else -⌊-q⌋

/-- Python's `round(q)` (banker's rounding, half to even); used only to state
the spec's claimed `total_samples` formula, for comparison with the source's
`int` truncation. -/
def pyRound (q : ℚ) : ℤ :=
  let f := ⌊q⌋
  let r := q - f
  if r < 1 / 2 then f
  else if 1 / 2 < r then f + 1
  else if Even f then f else f + 1

/-- `min(x_pts)` over the x-coordinates of a point list (0 on `[]`;
the code only evaluates it on non-empty input). -/
def minX : List Pt → ℚ
  | [] => 0
  | p :: t => t.foldl (fun m q => min m q.1) p.1

/-- `max(x_pts)` over the x-coordinates of a point list (0 on `[]`). -/
def maxX : List Pt → ℚ
  | [] => 0
  | p :: t => t.foldl (fun m q => max m q.1) p.1

/-- `np.linspace(a, b, n)`: `n` evenly spaced values from `a` to `b`
inclusive (`[]` for `n = 0`, `[a]` for `n = 1`). -/
def linspace (a b : ℚ) (n : ℕ) : List ℚ :=
  if n = 0 then []
  else if n = 1 then [a]
  else (List.range n).map (fun i : ℕ => a + (i : ℚ) * (b - a) / ((n : ℚ) - 1))

/-- The input selection of `PlotCanvas.interpolate_points`:
`self.points` if truthy, else `self.original_points` if truthy, else the
method returns without doing anything (`none`).  Note that
`self.interpolated_points` is never consulted here. -/
def chooseInterpInput (c : Canvas) : Option (List Pt) :=
  if c.points ≠ [] then some c.points
  else if c.original_points ≠ [] then some c.original_points
  else none

/-- The x-grid built by `PlotCanvas.interpolate_points`:
`total_points = max(int((max_x - min_x) * points_per_degree), 2)` followed by
`np.linspace(min_x, max_x, total_points)`. -/
def resampleGrid (pts : List Pt) (ppu : ℚ) : List ℚ :=
  let mn := minX pts
  let mx := maxX pts
  let total := max (pyInt ((mx - mn) * ppu)).toNat 2
  linspace mn mx total

/-- `PlotCanvas.interpolate_points`.  `fresh pts` models the freshly
constructed `UnivariateSpline(x_pts, y_pts, k=3, s=0)` fitted to `pts`; a
previously stored `self.smoothing_spline` shadows it when present.  The grid
values are zipped with the fitted values and stored as
`self.interpolated_points`. -/
def interpolate_points (fresh : List Pt → ℚ → ℚ) (c : Canvas) (ppu : ℚ) :
    Canvas :=
  match chooseInterpInput c with
  | none => c
  | some pts =>
      let f := c.smoothing_spline.getD (fresh pts)
      { c with interpolated_points := (resampleGrid pts ppu).map (fun x => (x, f x)) }

/-- `App.perform_interpolation`: raises `ValueError` (surfaced as a warning
dialog) when `len(self.plot_canvas.points) < 4`, otherwise calls
`interpolate_points`. -/
def perform_interpolation (fresh : List Pt → ℚ → ℚ) (c : Canvas) (ppu : ℚ) :
    Except String Canvas :=
  if c.points.length < 4 then
    .error "Not enough points for interpolation. At least 4 points are required."
  else
    .ok (interpolate_points fresh c ppu)

/-- `App.clear_interpolation`: resets `self.interpolated_points` to `[]` and
sorts `self.points` (via `update_plot`). -/
def clear_interpolation (c : Canvas) : Canvas :=
  { c with interpolated_points := [], points := sortPoints c.points }

/-- `np.interp(x, xp, fp)` for an increasing abscissa list: clamp to the end
values outside the hull, linear interpolation on the containing segment
inside. -/
def npInterp (x : ℚ) : List Pt → ℚ
  | [] => 0
  | [p] => p.2
  | p :: q :: t =>
      if x ≤ p.1 then p.2
      else if x ≤ q.1 then p.2 + (x - p.1) * (q.2 - p.2) / (q.1 - p.1)
      else npInterp x (q :: t)

/-- `all(np.diff(x_pts) > 0)`: consecutive x-coordinates strictly increase. -/
def strictIncXb : List Pt → Bool
  | [] => true
  | [_] => true
  | p :: q :: t => decide (p.1 < q.1) && strictIncXb (q :: t)

/-- The envelope fit used by the vibration generators: the fresh
exact-interpolation spline when there are at least 4 strictly increasing
points, else `np.interp` piecewise-linear interpolation. -/
def envFit (fresh : List Pt → ℚ → ℚ) (pts : List Pt) (x : ℚ) : ℚ :=
  if 4 ≤ pts.length ∧ strictIncXb pts = true then fresh pts x
  else npInterp x pts

/-- The composite oscillator of `App.generate_multi_frequency_vibration`:
starting from `np.zeros_like(x_dense)`, for each `(freq, amp)` pair add
`amp * sin(2π · freq · x / sampling_rate)` pointwise.  `sinAt f x r` models
the library sample `np.sin(2 * np.pi * f * x / r)`. -/
def compositeOsc (sinAt : ℚ → ℚ → ℚ → ℚ) (tones : List (ℚ × ℚ)) (rate : ℚ)
    (xs : List ℚ) : List ℚ :=
  xs.map (fun x => tones.foldl (fun acc t => acc + t.2 * sinAt t.1 x rate) 0)

/-- `np.max(np.abs(v))` for a non-empty list of samples (0 on `[]`; the code
raises on an empty array before reaching this point). -/
def peakAbs (v : List ℚ) : ℚ :=
  v.foldl (fun m a => max m |a|) 0

/-- The normalization step: `if max_vib > 0: vibration = vibration / max_vib`,
otherwise the signal is left untouched (no division). -/
def normalizeVib (v : List ℚ) : List ℚ :=
  if 0 < peakAbs v then v.map (fun a => a / peakAbs v) else v

/-- `App.generate_multi_frequency_vibration`.  `sinAt` models `np.sin` as in
`compositeOsc`; `fresh` models the fresh `UnivariateSpline(..., s=0)`.  The
`ValueError`s raised by the code (and the `np.max` failure on an empty dense
grid) are returned as `.error`; on success the envelope and the normalized,
envelope-modulated signal are stored on the canvas. -/
def generate_multi_frequency_vibration (sinAt : ℚ → ℚ → ℚ → ℚ)
    (fresh : List Pt → ℚ → ℚ) (c : Canvas) (rate globalAmp : ℚ)
    (tones : List (ℚ × ℚ)) : Except String Canvas :=
  if tones = [] then .error "No frequencies selected for vibration."
  else
    let base := if c.interpolated_points ≠ [] then c.interpolated_points
                else c.points
    if base.length < 2 then
      .error "Need at least two points to generate vibration."
    else
      let mn := minX base
      let mx := maxX base
      let n := (pyInt ((mx - mn) * rate / 1000)).toNat
      let xd := linspace mn mx n
      let yd := xd.map (envFit fresh base)
      let vib := compositeOsc sinAt tones rate xd
      if vib = [] then
        .error "zero-size array to reduction operation maximum which has no identity"
      else
        let vib2 := normalizeVib vib
        let signal := (xd.zip (yd.zip vib2)).map
          (fun p => (p.1, p.2.1 * p.2.2 * globalAmp))
        .ok { c with envelope_x := xd, envelope_y := yd,
                     vibration_signal := signal }

/-- `np.fft.fftfreq(n, d)` per its documented output:
`[0, 1, ..., (n-1)//2, -(n//2), ..., -1] / (n*d)`. -/
def pyFftfreq (n : ℕ) (d : ℚ) : List ℚ :=
  (List.range n).map (fun k =>
    if k ≤ (n - 1) / 2 then (k : ℚ) / (n * d)
    else ((k : ℚ) - n) / (n * d))

/-- The spectrum computation of
`VibrationSettingsWindow.plot_vibration_and_dft`: with `N = len(y)` and
`T = 1/sampling_rate`, the displayed frequency axis is
`np.fft.fftfreq(N, T)[:N//2]` and the magnitudes are
`2.0/N * np.abs(np.fft.fft(y)[:N//2])`.  `absdft k` models the library value
`np.abs(np.fft.fft(y))[k]`. -/
def magnitude_spectrum (absdft : ℕ → ℚ) (y : List ℚ) (rate : ℚ) :
    List ℚ × List ℚ :=
  ((pyFftfreq y.length (1 / rate)).take (y.length / 2),
   (List.range (y.length / 2)).map (fun k => 2 / (y.length : ℚ) * absdft k))

/-- Modelled from the spec: scipy's `UnivariateSpline(x, y, k=3, s=0)` (not
part of this repository) "passes through all data points" — the fitted
function is an exact interpolant of its knots. -/
def ExactInterpolant (f : ℚ → ℚ) (pts : List Pt) : Prop :=
  ∀ p ∈ pts, f p.1 = p.2

/-- One public point-edit command on the canvas. -/
inductive EditOp where
  | add (x y : ℚ)
  | move (old new : Pt)
  | del (p : Pt)

/-- Apply one edit command. -/
def applyOp (c : Canvas) : EditOp → Canvas
  | .add x y => add_point c x y
  | .move old new => move_point c old new
  | .del p => delete_point c p

/-- Apply a sequence of edit commands in order. -/
def applyOps (c : Canvas) (ops : List EditOp) : Canvas :=
  ops.foldl applyOp c

/-! ### Sorting lemmas -/

instance : IsTrans Pt ptLe where
  trans := by
    intro a b c hab hbc
    rcases hab with h1 | ⟨h1, h1'⟩ <;> rcases hbc with h2 | ⟨h2, h2'⟩
    · exact Or.inl (h1.trans h2)
    · exact Or.inl (h2 ▸ h1)
    · exact Or.inl (h1 ▸ h2)
    · exact Or.inr ⟨h1.trans h2, h1'.trans h2'⟩

instance : IsTotal Pt ptLe where
  total := by
    intro a b
    rcases lt_trichotomy a.1 b.1 with h | h | h
    · exact Or.inl (Or.inl h)
    · rcases le_total a.2 b.2 with h2 | h2
      · exact Or.inl (Or.inr ⟨h, h2⟩)
      · exact Or.inr (Or.inr ⟨h.symm, h2⟩)
    · exact Or.inr (Or.inl h)

lemma sortedLex_sortPoints (l : List Pt) : SortedLex (sortPoints l) :=
  List.sorted_insertionSort ptLe l

lemma sortPoints_eq_of_sorted {l : List Pt} (h : SortedLex l) :
    sortPoints l = l :=
  List.Sorted.insertionSort_eq h

lemma SortedLex.toX {l : List Pt} (h : SortedLex l) : SortedX l := by
  refine h.imp ?_
  intro p q hpq
  rcases hpq with h1 | ⟨h1, _⟩
  · exact le_of_lt h1
  · exact le_of_eq h1

lemma applyOp_sortedLex (c : Canvas) (op : EditOp)
    (h : SortedLex c.points) : SortedLex (applyOp c op).points := by
  cases op with
  | add x y => exact sortedLex_sortPoints _
  | move old new =>
      unfold applyOp move_point record_history
      by_cases hm : old ∈ c.points <;> simp [hm]
      · exact sortedLex_sortPoints _
      · exact h
  | del p =>
      unfold applyOp delete_point record_history
      by_cases hm : p ∈ c.points <;> simp [hm]
      · exact sortedLex_sortPoints _
      · exact h

lemma applyOps_sortedLex (ops : List EditOp) :
    ∀ c : Canvas, SortedLex c.points → SortedLex (applyOps c ops).points := by
  induction ops with
  | nil => exact fun _ h => h
  | cons op t ih =>
      intro c h
      exact ih (applyOp c op) (applyOp_sortedLex c op h)

/-- C1: for every sequence of `add_point`, `move_point`, `delete_point`
operations applied to a PointSet (a state whose Curve satisfies the sort
invariant, as every reachable state does), the Curve is sorted ascending by
x when each call returns. -/
theorem curve_sorted_after_edits (c : Canvas) (h : SortedLex c.points)
    (ops : List EditOp) : SortedX (applyOps c ops).points :=
  (applyOps_sortedLex ops c h).toX

theorem curve_sorted_after_edits_witness :
    SortedLex ([((0 : ℚ), (0 : ℚ))] : List Pt) ∧
      SortedX (applyOps ⟨[(0, 0)], [], [(0, 0)], [], none, [], [], []⟩
        [.add 5 3, .move (0, 0) (7, 1), .del (5, 3)]).points :=
  ⟨by decide,
    curve_sorted_after_edits ⟨[(0, 0)], [], [(0, 0)], [], none, [], [], []⟩
      (by decide) [.add 5 3, .move (0, 0) (7, 1), .del (5, 3)]⟩

/-- C2 counterexample, negating the claim exactly at a concrete input: the
point `(1,1)` is not a member of the Curve `[(0,0)]`, yet the Curve after
`move_point (1,1) (2,2)` is *not* the result of a plain add of `(2,2)` —
`move_point` leaves the Curve `[(0,0)]` while appending `(2,2)` and
re-sorting (equivalently, `add_point 2 2`) yields `[(0,0),(2,2)]`. -/
theorem move_point_absent_cex :
    ((1 : ℚ), (1 : ℚ)) ∉ ([((0 : ℚ), (0 : ℚ))] : List Pt) ∧
    (move_point ⟨[((0 : ℚ), (0 : ℚ))], [], [], [], none, [], [], []⟩
        (1, 1) (2, 2)).points
      ≠ sortPoints (([((0 : ℚ), (0 : ℚ))] : List Pt) ++ [(2, 2)]) ∧
    (move_point ⟨[((0 : ℚ), (0 : ℚ))], [], [], [], none, [], [], []⟩
        (1, 1) (2, 2)).points
      ≠ (add_point ⟨[((0 : ℚ), (0 : ℚ))], [], [], [], none, [], [], []⟩
          2 2).points ∧
    (move_point ⟨[((0 : ℚ), (0 : ℚ))], [], [], [], none, [], [], []⟩
        (1, 1) (2, 2)).points = [(0, 0)] ∧
    (add_point ⟨[((0 : ℚ), (0 : ℚ))], [], [], [], none, [], [], []⟩
        2 2).points = [(0, 0), (2, 2)] := by
  refine ⟨?_, ?_, ?_, ?_, ?_⟩ <;> decide

/-- C2 amended: if `old` is not a member of the Curve, `move_point(old, new)`
is exactly `record_history` — the Curve is left unchanged (`new` is *not*
added), the pre-call Curve is pushed onto the history stack, and no other
field of the state changes. -/
theorem move_point_absent_amended (c : Canvas) (old new : Pt)
    (h : old ∉ c.points) :
    move_point c old new = record_history c ∧
    (move_point c old new).points = c.points ∧
    (move_point c old new).history = c.history ++ [c.points] := by
  have hmain : move_point c old new = record_history c := by
    unfold move_point record_history
    simp [h]
  refine ⟨hmain, ?_, ?_⟩ <;> rw [hmain] <;> rfl

theorem move_point_absent_amended_witness :
    ((1 : ℚ), (1 : ℚ)) ∉ ([((0 : ℚ), (0 : ℚ))] : List Pt) ∧
    (move_point ⟨[((0 : ℚ), (0 : ℚ))], [[(9, 9)]], [], [], none, [], [], []⟩
        (1, 1) (2, 2)
      = record_history ⟨[((0 : ℚ), (0 : ℚ))], [[(9, 9)]], [], [], none, [], [], []⟩ ∧
      (move_point ⟨[((0 : ℚ), (0 : ℚ))], [[(9, 9)]], [], [], none, [], [], []⟩
        (1, 1) (2, 2)).points = [((0 : ℚ), (0 : ℚ))] ∧
      (move_point ⟨[((0 : ℚ), (0 : ℚ))], [[(9, 9)]], [], [], none, [], [], []⟩
        (1, 1) (2, 2)).history = [[(9, 9)]] ++ [[((0 : ℚ), (0 : ℚ))]]) :=
  ⟨by decide,
    move_point_absent_amended
      ⟨[((0 : ℚ), (0 : ℚ))], [[(9, 9)]], [], [], none, [], [], []⟩
      (1, 1) (2, 2) (by decide)⟩

/-! ### Stride-slicing lemmas -/

lemma countP_range_mod (s : ℕ) (hs : 1 ≤ s) :
    ∀ n : ℕ, (List.range n).countP (fun i => i % s == 0) = (n + s - 1) / s := by
  intro n
  induction n with
  | zero =>
      simp [Nat.div_eq_of_lt (by omega : s - 1 < s)]
  | succ n ih =>
      rw [List.range_succ, List.countP_append, ih, List.countP_singleton]
      rcases Nat.eq_zero_or_pos n with hn | hn
      · subst hn
        simp [Nat.div_eq_of_lt (by omega : s - 1 < s), Nat.div_self (by omega : 0 < s)]
      · have harith : (n + 1 + s - 1) / s = (n + s - 1) / s + if s ∣ n then 1 else 0 := by
          have h1 : n + 1 + s - 1 = (n + s - 1) + 1 := by omega
          rw [h1, Nat.succ_div]
          have h2 : s ∣ n + s - 1 + 1 ↔ s ∣ n := by
            have h3 : n + s - 1 + 1 = n + s := by omega
            rw [h3, Nat.dvd_add_self_right]
          simp [h2]
        rw [harith]
        congr 1
        by_cases hd : s ∣ n
        · simp [hd, Nat.dvd_iff_mod_eq_zero.mp hd]
        · have hmod : ¬ (n % s = 0) := fun h => hd (Nat.dvd_iff_mod_eq_zero.mpr h)
          simp [hd, hmod]

lemma length_pyStride {α : Type} (l : List α) (s : ℕ) (hs : 1 ≤ s) :
    (pyStride l s).length = (l.length + s - 1) / s := by
  unfold pyStride
  rw [List.length_map, ← List.countP_eq_length_filter]
  have h1 : l.enum.countP (fun ie => ie.1 % s == 0)
      = (l.enum.map Prod.fst).countP (fun i => i % s == 0) := by
    rw [List.countP_map]
    rfl
  rw [h1, List.enum_map_fst, countP_range_mod s hs]

lemma pyStride_sublist {α : Type} (l : List α) (s : ℕ) :
    (pyStride l s).Sublist l := by
  have h := (List.filter_sublist (p := fun ie : ℕ × α => ie.1 % s == 0) l.enum).map Prod.snd
  rwa [List.enum_map_snd] at h

lemma pyStride_head {α : Type} (l : List α) (s : ℕ) :
    (pyStride l s).head? = l.head? := by
  cases l with
  | nil => rfl
  | cons a t =>
      unfold pyStride
      rw [List.enum_cons, List.filter_cons]
      simp [Nat.zero_mod]

lemma two_le_length_pyStride {α : Type} (l : List α) (s : ℕ) (hs : 1 ≤ s)
    (hlt : s < l.length) : 2 ≤ (pyStride l s).length := by
  rw [length_pyStride l s hs]
  rw [Nat.le_div_iff_mul_le (by omega : 0 < s)]
  omega

lemma downsample_eval_ok (c : Canvas) (s : ℕ) (hs : 1 ≤ s)
    (hlt : s < c.original_points.length) :
    downsample_points c s
      = .ok { c with points := sortPoints (pyStride c.original_points s) } := by
  have hne : c.original_points ≠ [] := by
    intro h
    rw [h] at hlt
    exact absurd hlt (by simp)
  have h2 := two_le_length_pyStride c.original_points s hs hlt
  unfold downsample_points
  rw [if_pos hne, if_neg (by omega), if_neg (by omega)]

lemma downsample_eval_error (c : Canvas) (s : ℕ)
    (hne : c.original_points ≠ []) (hle : c.original_points.length ≤ s) :
    downsample_points c s
      = .error "Downsample factor is too large. Not enough points to downsample." := by
  unfold downsample_points
  rw [if_pos hne, if_pos hle]

/-- C10: with `1 ≤ stride < len(OriginalCurve)`, the strided subsequence
`OriginalCurve[::stride]` always has at least 2 points, so the
"Not enough points after downsampling" branch is unreachable and
`downsample_points` succeeds. -/
theorem downsample_second_error_unreachable (c : Canvas) (s : ℕ)
    (hs : 1 ≤ s) (hlt : s < c.original_points.length) :
    2 ≤ (pyStride c.original_points s).length ∧
    ∃ c', downsample_points c s = .ok c' := by
  exact ⟨two_le_length_pyStride c.original_points s hs hlt,
    ⟨_, downsample_eval_ok c s hs hlt⟩⟩

theorem downsample_second_error_unreachable_witness :
    (1 ≤ 2 ∧ 2 < ([((0 : ℚ), (0 : ℚ)), (1, 1), (2, 2)] : List Pt).length) ∧
    (2 ≤ (pyStride ([((0 : ℚ), (0 : ℚ)), (1, 1), (2, 2)] : List Pt) 2).length ∧
      ∃ c', downsample_points
        ⟨[(5, 5)], [], [((0 : ℚ), (0 : ℚ)), (1, 1), (2, 2)], [], none, [], [], []⟩ 2
        = .ok c') :=
  ⟨⟨by decide, by decide⟩,
    downsample_second_error_unreachable
      ⟨[(5, 5)], [], [((0 : ℚ), (0 : ℚ)), (1, 1), (2, 2)], [], none, [], [], []⟩ 2
      (by decide) (by decide)⟩

/-- C6: the code is at odds with the claim — `downsample_points` replaces
`self.points` without ever calling `record_history`.  At the failing input
(Curve `[(5,5)]`, OriginalCurve `[(0,0),(1,1)]`, empty history, stride 1) the
call succeeds and mutates the Curve, yet the history stack stays empty, so
the top of history does not equal the pre-mutation Curve. -/
theorem downsample_skips_history_at_failing_input :
    (downsample_points
        ⟨[((5 : ℚ), (5 : ℚ))], [], [((0 : ℚ), (0 : ℚ)), (1, 1)], [], none, [], [], []⟩
        1).toOption.map (fun c => (c.points, c.history))
      = some ([((0 : ℚ), (0 : ℚ)), (1, 1)], []) := by
  decide

/-- C5 counterexample: for the unsorted OriginalCurve `[(1,0),(0,0)]` (as a
file load can produce — `load` never sorts `original_points`) and stride 1,
the claim predicts Curve `= OriginalCurve[::1] = [(1,0),(0,0)]` with first
element `OriginalCurve[0] = (1,0)`; the code instead stores the re-sorted
list `[(0,0),(1,0)]`, whose first element is `(0,0)`. -/
theorem downsample_points_cex :
    (downsample_points
        ⟨[((9 : ℚ), (9 : ℚ))], [], [((1 : ℚ), (0 : ℚ)), (0, 0)], [], none, [], [], []⟩
        1).toOption.map Canvas.points = some [(0, 0), (1, 0)] ∧
    pyStride ([((1 : ℚ), (0 : ℚ)), (0, 0)] : List Pt) 1 = [(1, 0), (0, 0)] ∧
    ([((0 : ℚ), (0 : ℚ)), (1, 0)] : List Pt) ≠ [(1, 0), (0, 0)] ∧
    ([((0 : ℚ), (0 : ℚ)), (1, 0)] : List Pt).head?
      ≠ ([((1 : ℚ), (0 : ℚ)), (0, 0)] : List Pt).head? := by
  refine ⟨?_, ?_, ?_, ?_⟩ <;> decide

/-- C5 amended: for every non-empty OriginalCurve and stride ≥ 1,
`downsample_points` fails exactly when `stride ≥ len(OriginalCurve)`.  On
success the Curve becomes the strided subsequence *re-sorted* (the mutation
path sorts); when OriginalCurve is sorted in the tuple order — the usual
case — this equals the subsequence itself, it has exactly
`ceil(len/stride)` points, its first element equals `OriginalCurve[0]`, and
OriginalCurve is left unchanged. -/
theorem downsample_points_amended (c : Canvas) (s : ℕ) (hs : 1 ≤ s)
    (hsorted : SortedLex c.original_points) (hne : c.original_points ≠ []) :
    ((∃ e, downsample_points c s = .error e) ↔ c.original_points.length ≤ s) ∧
    ∀ c', downsample_points c s = .ok c' →
      c'.points = pyStride c.original_points s ∧
      c'.points.length = (c.original_points.length + s - 1) / s ∧
      c'.points.head? = c.original_points.head? ∧
      c'.original_points = c.original_points := by
  have hsort_stride : sortPoints (pyStride c.original_points s)
      = pyStride c.original_points s :=
    sortPoints_eq_of_sorted (hsorted.sublist (pyStride_sublist _ _))
  by_cases hle : c.original_points.length ≤ s
  · rw [downsample_eval_error c s hne hle]
    exact ⟨⟨fun _ => hle, fun _ => ⟨_, rfl⟩⟩, fun c' h => by cases h⟩
  · have hlt : s < c.original_points.length := by omega
    rw [downsample_eval_ok c s hs hlt]
    constructor
    · constructor
      · rintro ⟨e, he⟩
        cases he
      · intro h
        omega
    · intro c' h
      rw [Except.ok.injEq] at h
      subst h
      refine ⟨hsort_stride, ?_, ?_, rfl⟩
      · rw [hsort_stride, length_pyStride _ _ hs]
      · rw [hsort_stride, pyStride_head]

theorem downsample_points_amended_witness :
    (1 ≤ 2 ∧ SortedLex ([((0 : ℚ), (0 : ℚ)), (1, 1), (2, 2)] : List Pt) ∧
      ([((0 : ℚ), (0 : ℚ)), (1, 1), (2, 2)] : List Pt) ≠ []) ∧
    (((∃ e, downsample_points
        ⟨[(9, 9)], [], [((0 : ℚ), (0 : ℚ)), (1, 1), (2, 2)], [], none, [], [], []⟩ 2
          = .error e) ↔
        ([((0 : ℚ), (0 : ℚ)), (1, 1), (2, 2)] : List Pt).length ≤ 2) ∧
      ∀ c', downsample_points
          ⟨[(9, 9)], [], [((0 : ℚ), (0 : ℚ)), (1, 1), (2, 2)], [], none, [], [], []⟩ 2
          = .ok c' →
        c'.points = pyStride ([((0 : ℚ), (0 : ℚ)), (1, 1), (2, 2)] : List Pt) 2 ∧
        c'.points.length
          = (([((0 : ℚ), (0 : ℚ)), (1, 1), (2, 2)] : List Pt).length + 2 - 1) / 2 ∧
        c'.points.head? = ([((0 : ℚ), (0 : ℚ)), (1, 1), (2, 2)] : List Pt).head? ∧
        c'.original_points = [((0 : ℚ), (0 : ℚ)), (1, 1), (2, 2)]) :=
  ⟨⟨by decide, by decide, by decide⟩,
    downsample_points_amended
      ⟨[(9, 9)], [], [((0 : ℚ), (0 : ℚ)), (1, 1), (2, 2)], [], none, [], [], []⟩ 2
      (by decide) (by decide) (by decide)⟩

/-! ### Grid (`np.linspace`) lemmas -/

lemma length_linspace (a b : ℚ) (n : ℕ) : (linspace a b n).length = n := by
  unfold linspace
  by_cases h0 : n = 0
  · simp [h0]
  · by_cases h1 : n = 1
    · simp [h0, h1]
    · simp [h0, h1]

lemma linspace_getD (a b : ℚ) (n i : ℕ) (hn : 2 ≤ n) (hi : i < n) :
    (linspace a b n).getD i 0 = a + (i : ℚ) * (b - a) / ((n : ℚ) - 1) := by
  unfold linspace
  rw [if_neg (by omega), if_neg (by omega)]
  rw [List.getD_eq_getElem _ _ (by simpa using hi)]
  rw [List.getElem_map, List.getElem_range]

lemma linspace_head (a b : ℚ) (n : ℕ) (hn : 1 ≤ n) :
    (linspace a b n).head? = some a := by
  unfold linspace
  rw [if_neg (by omega)]
  by_cases h1 : n = 1
  · simp [h1]
  · rw [if_neg h1]
    obtain ⟨m, rfl⟩ : ∃ m, n = m + 1 := ⟨n - 1, by omega⟩
    rw [List.range_succ_eq_map, List.map_cons]
    simp

lemma linspace_getLast (a b : ℚ) (n : ℕ) (hn : 2 ≤ n) :
    (linspace a b n).getLast? = some b := by
  unfold linspace
  rw [if_neg (by omega), if_neg (by omega)]
  obtain ⟨m, rfl⟩ : ∃ m, n = m + 1 := ⟨n - 1, by omega⟩
  rw [List.getLast?_map, List.range_succ, List.getLast?_concat]
  have hne : (m : ℚ) ≠ 0 := by
    have : (0 : ℕ) < m := by omega
    exact_mod_cast this.ne.symm
  simp only [Option.map_some', Option.some.injEq]
  have hcast : ((m : ℚ) + 1) - 1 = (m : ℚ) := by ring
  rw [show ((m + 1 : ℕ) : ℚ) = (m : ℚ) + 1 by push_cast; ring, hcast]
  field_simp

/-! ### Interpolation lemmas -/

lemma chooseInterpInput_of_points_ne (c : Canvas) (h : c.points ≠ []) :
    chooseInterpInput c = some c.points := by
  unfold chooseInterpInput
  rw [if_pos h]

lemma interpolate_points_eval (fresh : List Pt → ℚ → ℚ) (c : Canvas)
    (ppu : ℚ) (h : c.points ≠ []) :
    (interpolate_points fresh c ppu).interpolated_points
      = (resampleGrid c.points ppu).map
          (fun x => (x, (c.smoothing_spline.getD (fresh c.points)) x)) := by
  unfold interpolate_points
  rw [chooseInterpInput_of_points_ne c h]

lemma resampleGrid_head (pts : List Pt) (ppu : ℚ) :
    (resampleGrid pts ppu).head? = some (minX pts) := by
  unfold resampleGrid
  exact linspace_head _ _ _ (by omega)

lemma resampleGrid_getLast (pts : List Pt) (ppu : ℚ) :
    (resampleGrid pts ppu).getLast? = some (maxX pts) := by
  unfold resampleGrid
  exact linspace_getLast _ _ _ (by omega)

lemma resampleGrid_length (pts : List Pt) (ppu : ℚ) :
    (resampleGrid pts ppu).length
      = max (pyInt ((maxX pts - minX pts) * ppu)).toNat 2 := by
  unfold resampleGrid
  exact length_linspace _ _ _

lemma interp_x_grid (fresh : List Pt → ℚ → ℚ) (c : Canvas) (ppu : ℚ)
    (h : c.points ≠ []) :
    (interpolate_points fresh c ppu).interpolated_points.map Prod.fst
      = resampleGrid c.points ppu := by
  rw [interpolate_points_eval fresh c ppu h, List.map_map]
  exact List.map_id _

/-- C3 counterexample.  First canvas: Curve has 4 points with x in `[0, 3]`
while InterpolatedCurve has 4 points with x in `[10, 13]`; the claim selects
InterpolatedCurve, so the stored grid should start at x = 10, but it starts
at x = 0 — the input actually used is the Curve.  Second canvas: Curve is
empty and OriginalCurve has 5 points, so the input the claim would choose
has ≥ 4 points and no failure is predicted, yet `perform_interpolation`
fails because its check reads the length of the Curve. -/
theorem perform_interpolation_cex :
    perform_interpolation (fun _ _ => 0)
        ⟨[((0 : ℚ), (0 : ℚ)), (1, 1), (2, 2), (3, 3)], [], [],
          [((10 : ℚ), (0 : ℚ)), (11, 0), (12, 0), (13, 0)], none, [], [], []⟩ 1
      = .ok (interpolate_points (fun _ _ => 0)
          ⟨[((0 : ℚ), (0 : ℚ)), (1, 1), (2, 2), (3, 3)], [], [],
            [((10 : ℚ), (0 : ℚ)), (11, 0), (12, 0), (13, 0)], none, [], [], []⟩ 1) ∧
    ((interpolate_points (fun _ _ => 0)
        ⟨[((0 : ℚ), (0 : ℚ)), (1, 1), (2, 2), (3, 3)], [], [],
          [((10 : ℚ), (0 : ℚ)), (11, 0), (12, 0), (13, 0)], none, [], [], []⟩
        1).interpolated_points.map Prod.fst).head? = some 0 ∧
    (resampleGrid ([((10 : ℚ), (0 : ℚ)), (11, 0), (12, 0), (13, 0)] : List Pt) 1).head?
      = some 10 ∧
    ((0 : ℚ)) ≠ 10 ∧
    perform_interpolation (fun _ _ => 0)
        ⟨[], [], [((0 : ℚ), (0 : ℚ)), (1, 1), (2, 2), (3, 3), (4, 4)], [], none, [], [], []⟩
        1
      = .error "Not enough points for interpolation. At least 4 points are required." := by
  refine ⟨rfl, ?_, ?_, by decide, rfl⟩
  · rw [interp_x_grid _ _ _ (by decide), resampleGrid_head]
    simp [minX]
  · rw [resampleGrid_head]
    simp only [minX]
    norm_num

/-- C3 amended: the interpolation input is the Curve if non-empty, else
OriginalCurve (InterpolatedCurve is never consulted), and the
"insufficient points" failure occurs exactly when the *Curve* has fewer than
4 points — the check reads `len(self.plot_canvas.points)` regardless of
which input would be chosen. -/
theorem perform_interpolation_amended (fresh : List Pt → ℚ → ℚ)
    (c : Canvas) (ppu : ℚ) :
    (c.points.length < 4 →
      perform_interpolation fresh c ppu
        = .error "Not enough points for interpolation. At least 4 points are required.") ∧
    (4 ≤ c.points.length →
      chooseInterpInput c = some c.points ∧
      perform_interpolation fresh c ppu = .ok (interpolate_points fresh c ppu)) ∧
    (c.points = [] → c.original_points ≠ [] →
      chooseInterpInput c = some c.original_points) ∧
    (c.points = [] → c.original_points = [] → chooseInterpInput c = none) := by
  refine ⟨?_, ?_, ?_, ?_⟩
  · intro h
    unfold perform_interpolation
    rw [if_pos h]
  · intro h
    have hne : c.points ≠ [] := by
      intro hh
      rw [hh] at h
      exact absurd h (by decide)
    refine ⟨chooseInterpInput_of_points_ne c hne, ?_⟩
    unfold perform_interpolation
    rw [if_neg (by omega)]
  · intro h1 h2
    unfold chooseInterpInput
    rw [if_neg (by simp [h1]), if_pos h2]
  · intro h1 h2
    unfold chooseInterpInput
    rw [if_neg (by simp [h1]), if_neg (by simp [h2])]

theorem perform_interpolation_amended_witness :
    (4 ≤ ([((0 : ℚ), (0 : ℚ)), (1, 1), (2, 2), (3, 3)] : List Pt).length) ∧
    (chooseInterpInput
        ⟨[((0 : ℚ), (0 : ℚ)), (1, 1), (2, 2), (3, 3)], [], [], [], none, [], [], []⟩
        = some [((0 : ℚ), (0 : ℚ)), (1, 1), (2, 2), (3, 3)] ∧
      perform_interpolation (fun _ _ => 0)
        ⟨[((0 : ℚ), (0 : ℚ)), (1, 1), (2, 2), (3, 3)], [], [], [], none, [], [], []⟩ 1
        = .ok (interpolate_points (fun _ _ => 0)
            ⟨[((0 : ℚ), (0 : ℚ)), (1, 1), (2, 2), (3, 3)], [], [], [], none, [], [], []⟩ 1)) :=
  ⟨by decide,
    (perform_interpolation_amended (fun _ _ => 0)
      ⟨[((0 : ℚ), (0 : ℚ)), (1, 1), (2, 2), (3, 3)], [], [], [], none, [], [], []⟩
      1).2.1 (by decide)⟩

lemma interp_length (fresh : List Pt → ℚ → ℚ) (c : Canvas) (ppu : ℚ)
    (h : c.points ≠ []) :
    (interpolate_points fresh c ppu).interpolated_points.length
      = max (pyInt ((maxX c.points - minX c.points) * ppu)).toNat 2 := by
  rw [interpolate_points_eval fresh c ppu h, List.length_map, resampleGrid_length]

/-- C7 counterexample: for the curve
`[(0,0), (1/10,1), (2/10,2), (39/100,3)]` and `points_per_unit = 10` the
span is `0.39`, so `(max_x - min_x) * points_per_unit = 3.9`; the source's
`int(3.9) = 3` yields a 3-point grid, while the claim's
`max(2, round(3.9)) = 4` predicts 4 points. -/
theorem interpolate_total_samples_cex :
    (interpolate_points (fun _ _ => 0)
        ⟨[((0 : ℚ), (0 : ℚ)), (1 / 10, 1), (2 / 10, 2), (39 / 100, 3)],
          [], [], [], none, [], [], []⟩
        10).interpolated_points.length = 3 ∧
    max (pyRound ((maxX ([((0 : ℚ), (0 : ℚ)), (1 / 10, 1), (2 / 10, 2), (39 / 100, 3)] : List Pt)
        - minX ([((0 : ℚ), (0 : ℚ)), (1 / 10, 1), (2 / 10, 2), (39 / 100, 3)] : List Pt)) * 10)).toNat 2
      = 4 ∧
    (3 : ℕ) ≠ 4 := by
  refine ⟨?_, ?_, by decide⟩
  · rw [interp_length _ _ _ (by decide)]
    simp only [minX, maxX]
    norm_num [pyInt]
    rfl
  · simp only [minX, maxX]
    norm_num [pyRound]
    rfl

/-- C7 amended: for every non-empty input, `interpolate_points` builds a grid
of exactly `total_samples = max(int((max_x - min_x) * points_per_unit), 2)`
— Python `int` truncation, *not* `round` — evenly spaced x-values from
`min_x` to `max_x`, and stores one point `(x, f x)` per grid value as the
new InterpolatedCurve, where `f` is the previously stored smoothing spline
if present, else the fresh exact spline. -/
theorem interpolate_grid_amended (fresh : List Pt → ℚ → ℚ) (c : Canvas)
    (ppu : ℚ) (hne : c.points ≠ []) :
    (interpolate_points fresh c ppu).interpolated_points.length
      = max (pyInt ((maxX c.points - minX c.points) * ppu)).toNat 2 ∧
    (interpolate_points fresh c ppu).interpolated_points.map Prod.fst
      = resampleGrid c.points ppu ∧
    (resampleGrid c.points ppu).head? = some (minX c.points) ∧
    (resampleGrid c.points ppu).getLast? = some (maxX c.points) ∧
    (∀ i, i < max (pyInt ((maxX c.points - minX c.points) * ppu)).toNat 2 →
      (resampleGrid c.points ppu).getD i 0
        = minX c.points + (i : ℚ) * (maxX c.points - minX c.points)
            / (((max (pyInt ((maxX c.points - minX c.points) * ppu)).toNat 2 : ℕ) : ℚ) - 1)) ∧
    (interpolate_points fresh c ppu).interpolated_points
      = (resampleGrid c.points ppu).map
          (fun x => (x, (c.smoothing_spline.getD (fresh c.points)) x)) := by
  refine ⟨interp_length fresh c ppu hne, interp_x_grid fresh c ppu hne,
    resampleGrid_head c.points ppu, resampleGrid_getLast c.points ppu, ?_,
    interpolate_points_eval fresh c ppu hne⟩
  intro i hi
  simp only [resampleGrid]
  exact linspace_getD _ _ _ i (by omega) hi

theorem interpolate_grid_amended_witness :
    ([((0 : ℚ), (0 : ℚ)), (1, 1), (2, 2), (3, 3)] : List Pt) ≠ [] ∧
    (interpolate_points (fun _ _ => 0)
        ⟨[((0 : ℚ), (0 : ℚ)), (1, 1), (2, 2), (3, 3)], [], [], [], none, [], [], []⟩
        1).interpolated_points.length
      = max (pyInt ((maxX ([((0 : ℚ), (0 : ℚ)), (1, 1), (2, 2), (3, 3)] : List Pt)
          - minX ([((0 : ℚ), (0 : ℚ)), (1, 1), (2, 2), (3, 3)] : List Pt)) * 1)).toNat 2 :=
  ⟨by decide,
    (interpolate_grid_amended (fun _ _ => 0)
      ⟨[((0 : ℚ), (0 : ℚ)), (1, 1), (2, 2), (3, 3)], [], [], [], none, [], [], []⟩
      1 (by decide)).1⟩

/-- C4 counterexample: for the 3-point curve `[(0,0),(1,1),(2,0)]` with
strictly increasing x, `interpolate` does not succeed with linear
interpolation — `perform_interpolation` rejects any curve with fewer than 4
points before any fitting happens. -/
theorem interpolate_three_points_cex :
    strictIncXb ([((0 : ℚ), (0 : ℚ)), (1, 1), (2, 0)] : List Pt) = true ∧
    ([((0 : ℚ), (0 : ℚ)), (1, 1), (2, 0)] : List Pt).length = 3 ∧
    perform_interpolation (fun _ _ => 0)
        ⟨[((0 : ℚ), (0 : ℚ)), (1, 1), (2, 0)], [], [], [], none, [], [], []⟩ 10
      = .error "Not enough points for interpolation. At least 4 points are required." :=
  ⟨by decide, by decide, rfl⟩

/-- C4 amended: with exactly 3 points `interpolate` fails with the
insufficient-points condition (the piecewise-linear fallback belongs to the
other CurveFitter consumers, not to `interpolate`); with ≥ 4 strictly
increasing points and no stored smoothing spline, `interpolate` uses the
fresh exact spline path, and — under scipy's documented s = 0 contract that
the fresh spline interpolates its knots — every original point whose x lies
on the output grid reappears exactly in the stored InterpolatedCurve. -/
theorem interpolate_spline_path_amended (fresh : List Pt → ℚ → ℚ)
    (c : Canvas) (ppu : ℚ) :
    (c.points.length = 3 →
      perform_interpolation fresh c ppu
        = .error "Not enough points for interpolation. At least 4 points are required.") ∧
    (4 ≤ c.points.length → strictIncXb c.points = true →
      c.smoothing_spline = none →
      (interpolate_points fresh c ppu).interpolated_points
        = (resampleGrid c.points ppu).map (fun x => (x, fresh c.points x)) ∧
      (ExactInterpolant (fresh c.points) c.points →
        ∀ p ∈ c.points, p.1 ∈ resampleGrid c.points ppu →
          (p.1, p.2) ∈ (interpolate_points fresh c ppu).interpolated_points)) := by
  constructor
  · intro h
    unfold perform_interpolation
    rw [if_pos (by omega)]
  · intro h4 _ hnone
    have hne : c.points ≠ [] := by
      intro hh
      rw [hh] at h4
      exact absurd h4 (by decide)
    have heval : (interpolate_points fresh c ppu).interpolated_points
        = (resampleGrid c.points ppu).map (fun x => (x, fresh c.points x)) := by
      have h := interpolate_points_eval fresh c ppu hne
      rw [hnone] at h
      exact h
    refine ⟨heval, ?_⟩
    intro hexact p hp hgrid
    rw [heval]
    have hmem : (p.1, fresh c.points p.1)
        ∈ (resampleGrid c.points ppu).map (fun x => (x, fresh c.points x)) :=
      List.mem_map_of_mem (fun x => (x, fresh c.points x)) hgrid
    rwa [hexact p hp] at hmem

theorem interpolate_spline_path_amended_witness :
    (4 ≤ ([((0 : ℚ), (0 : ℚ)), (1, 1), (2, 2), (3, 3)] : List Pt).length ∧
      strictIncXb ([((0 : ℚ), (0 : ℚ)), (1, 1), (2, 2), (3, 3)] : List Pt) = true ∧
      ExactInterpolant ((fun _ x => x) ([((0 : ℚ), (0 : ℚ)), (1, 1), (2, 2), (3, 3)] : List Pt))
        [((0 : ℚ), (0 : ℚ)), (1, 1), (2, 2), (3, 3)]) ∧
    (((0 : ℚ), (0 : ℚ)) ∈ (interpolate_points (fun _ x => x)
        ⟨[((0 : ℚ), (0 : ℚ)), (1, 1), (2, 2), (3, 3)], [], [], [], none, [], [], []⟩
        1).interpolated_points) := by
  have hexact : ExactInterpolant
      ((fun _ x => x) ([((0 : ℚ), (0 : ℚ)), (1, 1), (2, 2), (3, 3)] : List Pt))
      [((0 : ℚ), (0 : ℚ)), (1, 1), (2, 2), (3, 3)] := by
    intro p hp
    fin_cases hp <;> rfl
  refine ⟨⟨by decide, by decide, hexact⟩, ?_⟩
  have hmem0 : (0 : ℚ) ∈ resampleGrid
      ([((0 : ℚ), (0 : ℚ)), (1, 1), (2, 2), (3, 3)] : List Pt) 1 := by
    apply List.mem_of_mem_head?
    rw [resampleGrid_head]
    simp only [minX, Option.mem_def, Option.some.injEq]
    norm_num
  have h := (interpolate_spline_path_amended (fun _ x => x)
      ⟨[((0 : ℚ), (0 : ℚ)), (1, 1), (2, 2), (3, 3)], [], [], [], none, [], [], []⟩
      1).2 (by decide) (by decide) rfl
  exact h.2 hexact (0, 0) (by decide) hmem0

/-! ### Oscillator normalization lemmas -/

lemma foldl_max_abs_div (p : ℚ) (hp : 0 < p) :
    ∀ (v : List ℚ) (a : ℚ),
      (v.map (fun x => x / p)).foldl (fun m x => max m |x|) (a / p)
        = (v.foldl (fun m x => max m |x|) a) / p := by
  intro v
  induction v with
  | nil => intro a; rfl
  | cons x t ih =>
      intro a
      simp only [List.map_cons, List.foldl_cons]
      rw [abs_div, abs_of_pos hp, max_div_div_right (le_of_lt hp)]
      exact ih (max a |x|)

lemma peakAbs_div (v : List ℚ) (p : ℚ) (hp : 0 < p) :
    peakAbs (v.map (fun x => x / p)) = peakAbs v / p := by
  unfold peakAbs
  have h := foldl_max_abs_div p hp v 0
  rwa [zero_div] at h

lemma foldl_tones_zero (sinAt : ℚ → ℚ → ℚ → ℚ) (rate x : ℚ) :
    ∀ (l : List (ℚ × ℚ)), (∀ t ∈ l, t.2 = 0) → ∀ a : ℚ,
      l.foldl (fun acc t => acc + t.2 * sinAt t.1 x rate) a = a := by
  intro l
  induction l with
  | nil => intro _ a; rfl
  | cons t ts ih =>
      intro h a
      simp only [List.foldl_cons]
      rw [h t (List.mem_cons_self t ts), zero_mul, add_zero]
      exact ih (fun u hu => h u (List.mem_cons_of_mem t hu)) a

/-- C8 counterexample: with an empty tone list the code raises
"No frequencies selected for vibration." before any oscillator is built —
no all-zero composite signal is produced, contrary to the claim's
description of the empty-list case. -/
theorem vibration_empty_tones_cex :
    generate_multi_frequency_vibration (fun _ _ _ => 0) (fun _ _ => 0)
        ⟨[((0 : ℚ), (0 : ℚ)), (1000, 1)], [], [], [], none, [], [], []⟩ 1000 1 []
      = .error "No frequencies selected for vibration." := rfl

/-- C8 amended: an *empty* tone list makes the call fail with a validation
error before any oscillator is computed; for a tone list whose amplitudes
are all zero the composite oscillator is identically zero, the peak is 0 and
the division branch is skipped (the signal is left as the zero signal); and
whenever the composite oscillator's peak absolute value is positive, the
division is performed and the normalized oscillator's peak absolute value is
exactly 1. -/
theorem vibration_normalization_amended (sinAt : ℚ → ℚ → ℚ → ℚ)
    (fresh : List Pt → ℚ → ℚ) (c : Canvas) (rate gamp : ℚ)
    (tones : List (ℚ × ℚ)) (xs : List ℚ) :
    (generate_multi_frequency_vibration sinAt fresh c rate gamp []
      = .error "No frequencies selected for vibration.") ∧
    ((∀ t ∈ tones, t.2 = 0) →
      compositeOsc sinAt tones rate xs = xs.map (fun _ => 0)) ∧
    (peakAbs (compositeOsc sinAt tones rate xs) = 0 →
      normalizeVib (compositeOsc sinAt tones rate xs)
        = compositeOsc sinAt tones rate xs) ∧
    (0 < peakAbs (compositeOsc sinAt tones rate xs) →
      peakAbs (normalizeVib (compositeOsc sinAt tones rate xs)) = 1) := by
  refine ⟨rfl, ?_, ?_, ?_⟩
  · intro h
    unfold compositeOsc
    exact List.map_congr_left (fun x _ => foldl_tones_zero sinAt rate x tones h 0)
  · intro h
    unfold normalizeVib
    rw [if_neg]
    rw [h]
    exact lt_irrefl 0
  · intro h
    unfold normalizeVib
    rw [if_pos h, peakAbs_div _ _ h]
    exact div_self (ne_of_gt h)

theorem vibration_normalization_amended_witness :
    0 < peakAbs (compositeOsc (fun _ _ _ => 1) [((1 : ℚ), (2 : ℚ))] 4 [0]) ∧
    peakAbs (normalizeVib (compositeOsc (fun _ _ _ => 1) [((1 : ℚ), (2 : ℚ))] 4 [0])) = 1 := by
  have h0 : 0 < peakAbs (compositeOsc (fun _ _ _ => 1) [((1 : ℚ), (2 : ℚ))] 4 [0]) := by
    norm_num [compositeOsc, peakAbs, List.foldl_cons, List.foldl_nil]
  exact ⟨h0,
    (vibration_normalization_amended (fun _ _ _ => 1) (fun _ _ => 0)
      ⟨[], [], [], [], none, [], [], []⟩ 4 1 [((1 : ℚ), (2 : ℚ))] [0]).2.2.2 h0⟩

/-! ### Spectrum lemmas -/

lemma pyFftfreq_take (n : ℕ) (d : ℚ) :
    (pyFftfreq n d).take (n / 2)
      = (List.range (n / 2)).map (fun k : ℕ => (k : ℚ) / (n * d)) := by
  unfold pyFftfreq
  rw [← List.map_take, List.take_range,
    min_eq_left (Nat.div_le_self n 2)]
  apply List.map_congr_left
  intro k hk
  rw [List.mem_range] at hk
  rw [if_pos ((Nat.le_div_iff_mul_le (by omega)).mpr (by omega))]

lemma magnitude_spectrum_fst (absdft : ℕ → ℚ) (y : List ℚ) (rate : ℚ) :
    (magnitude_spectrum absdft y rate).1
      = (List.range (y.length / 2)).map
          (fun k : ℕ => (k : ℚ) * rate / (y.length : ℚ)) := by
  unfold magnitude_spectrum
  rw [pyFftfreq_take]
  apply List.map_congr_left
  intro k _
  rw [mul_one_div, div_div_eq_mul_div]

lemma range_getLast? (m : ℕ) : (List.range (m + 1)).getLast? = some m := by
  rw [List.range_succ, List.getLast?_concat]

lemma bin_lt_half_rate (N k : ℕ) (rate : ℚ) (hrate : 0 < rate)
    (hN : 2 ≤ N) (hk : k < N / 2) :
    (k : ℚ) * rate / (N : ℚ) < rate / 2 := by
  have hN0 : (0 : ℚ) < (N : ℚ) := by exact_mod_cast (by omega : 0 < N)
  have hk2 : ((2 * k : ℕ) : ℚ) < (N : ℚ) := by
    exact_mod_cast (by omega : 2 * k < N)
  rw [div_lt_div_iff₀ hN0 (by norm_num : (0 : ℚ) < 2)]
  push_cast at hk2
  nlinarith

/-- C9: for a signal of `N` samples at sampling rate `R`, the spectrum
computation keeps exactly `⌊N/2⌋` frequency bins, with
`frequency_bins[k] = k * R / N` for every `k < N/2`, magnitudes
`2/N * |DFT bin k|` (the `|DFT bin k|` values entering as the modelled
`absdft`), every bin strictly below the Nyquist frequency `R/2`, and in
particular the last bin `< R/2`. -/
theorem magnitude_spectrum_bins (absdft : ℕ → ℚ) (y : List ℚ) (rate : ℚ)
    (hrate : 0 < rate) (hN : 2 ≤ y.length) :
    (magnitude_spectrum absdft y rate).1.length = y.length / 2 ∧
    (magnitude_spectrum absdft y rate).2.length = y.length / 2 ∧
    (∀ k, k < y.length / 2 →
      (magnitude_spectrum absdft y rate).1.getD k 0
        = (k : ℚ) * rate / (y.length : ℚ)) ∧
    (∀ k, k < y.length / 2 →
      (magnitude_spectrum absdft y rate).2.getD k 0
        = 2 / (y.length : ℚ) * absdft k) ∧
    (∀ b ∈ (magnitude_spectrum absdft y rate).1, b < rate / 2) ∧
    (∀ b, (magnitude_spectrum absdft y rate).1.getLast? = some b →
      b < rate / 2) := by
  refine ⟨?_, ?_, ?_, ?_, ?_, ?_⟩
  · rw [magnitude_spectrum_fst, List.length_map, List.length_range]
  · unfold magnitude_spectrum
    rw [List.length_map, List.length_range]
  · intro k hk
    rw [magnitude_spectrum_fst,
      List.getD_eq_getElem _ _ (by simpa using hk),
      List.getElem_map, List.getElem_range]
  · intro k hk
    unfold magnitude_spectrum
    rw [List.getD_eq_getElem _ _ (by simpa using hk),
      List.getElem_map, List.getElem_range]
  · intro b hb
    rw [magnitude_spectrum_fst] at hb
    obtain ⟨k, hk, rfl⟩ := List.mem_map.mp hb
    rw [List.mem_range] at hk
    exact bin_lt_half_rate y.length k rate hrate hN hk
  · intro b hb
    rw [magnitude_spectrum_fst] at hb
    obtain ⟨m, hm⟩ : ∃ m, y.length / 2 = m + 1 := ⟨y.length / 2 - 1, by omega⟩
    rw [hm, List.getLast?_map, range_getLast?, Option.map_some',
      Option.some.injEq] at hb
    subst hb
    exact bin_lt_half_rate y.length m rate hrate hN (by omega)

theorem magnitude_spectrum_bins_witness :
    ((0 : ℚ) < 8 ∧ 2 ≤ ([(1 : ℚ), 2, 3, 4] : List ℚ).length) ∧
    (magnitude_spectrum (fun _ => 1) ([(1 : ℚ), 2, 3, 4] : List ℚ) 8).1.length
      = ([(1 : ℚ), 2, 3, 4] : List ℚ).length / 2 :=
  ⟨⟨by decide, by decide⟩,
    (magnitude_spectrum_bins (fun _ => 1) ([(1 : ℚ), 2, 3, 4] : List ℚ) 8
      (by decide) (by decide)).1⟩

end HapTune
